import Mathlib

/-!
# Verification of `Hackathon/1-ddos_project/mitigation.c`

A shallow embedding of the XDP source-address filter: the cursor parsers
`parse_eth` / `parse_ip`, the `blocklist` hash map with its `lookup` and
`lock_xadd` primitives, and the entry point `xdp_filter`.

Conventions of the embedding

* A frame is the list of bytes between `ctx->data` and `ctx->data_end`.
  Pointers into the frame are byte offsets from `ctx->data`, so the cursor
  starts at `pos = 0`, `end = frame.length`.
* Every memory read returns `Option`: `none` is an access outside the
  frame (or through an unset pointer), i.e. a fault.
* `u32` / `u64` values are natural numbers, the `u64` addition of
  `lock_xadd` is taken modulo `2 ^ 64`.
* The byte order of the host is a parameter `le` (`true` = little endian),
  since `eth->h_proto`, `htons` and `ip->saddr` are host-order loads of
  network-order fields.
-/

namespace Mitigation

/-! ## Data model -/

/-- One octet of packet memory. -/
abbrev Byte := Fin 256

/-- The bytes of a received frame, from `ctx->data` up to `ctx->data_end`. -/
abbrev Frame := List Byte

/-- Modelled from the spec: the verdict constants `XDP_PASS` / `XDP_DROP` come
from the kernel header `uapi/linux/bpf.h`, which is not part of the
repository; the spec describes the output as the two-valued verdict
PASS / DROP. -/
inductive Verdict where
  | XDP_PASS
  | XDP_DROP
  deriving DecidableEq, Repr

open Verdict

/-- Modelled from the spec: `sizeof(struct ethhdr)`; the structure is declared
in `uapi/linux/if_ether.h` (not in the repository), the spec gives the
Ethernet header 14 bytes. -/
def sizeof_ethhdr : Nat := 14

/-- Modelled from the spec: `sizeof(struct iphdr)`; the structure is declared
in `uapi/linux/ip.h` (not in the repository), the spec gives the minimum
IPv4 header 20 bytes. -/
def sizeof_iphdr : Nat := 20

/-- Modelled from the spec: byte offset of `h_proto` inside `struct ethhdr`
(after the two 6-byte MAC addresses; frame offsets 12-13). -/
def offsetof_h_proto : Nat := 12

/-- Modelled from the spec: byte offset of `saddr` inside `struct iphdr`
(frame offsets 26-29 when the header follows a 14-byte Ethernet header). -/
def offsetof_saddr : Nat := 12

/-- Modelled from the spec: `ETH_P_IP`, the IPv4 EtherType `0x0800`, defined in
`uapi/linux/if_ether.h`. -/
def ETH_P_IP : Nat := 0x0800

/-- The `struct cursor` of the source: current position and end of the frame,
both as byte offsets from `ctx->data`. -/
structure cursor where
  pos : Nat
  end_ : Nat
  deriving DecidableEq, Repr

/-- The `blocklist` map declared by `BPF_HASH(blocklist, u32, u64)`: a list of
slots, each holding a `u32` key and a `u64` drop count. A pointer to a value
is the index of its slot. A kernel hash map holds each key once; nothing below
depends on it, a lookup always resolves to the first slot holding the key. -/
abbrev BPF_HASH := List (Nat × Nat)

/-! ## Memory reads -/

/-- Read one byte of the frame at offset `off`; `none` outside the frame. -/
def load_u8 (frame : Frame) (off : Nat) : Option Nat :=
  (frame[off]?).map Fin.val

/-- Host-order load of a 16-bit field at offset `off`. -/
def load_u16 (le : Bool) (frame : Frame) (off : Nat) : Option Nat :=
  match load_u8 frame off, load_u8 frame (off + 1) with
  | some b0, some b1 => some (if le then b0 + 256 * b1 else 256 * b0 + b1)
  | _, _ => none

/-- Host-order load of a 32-bit field at offset `off`. -/
def load_u32 (le : Bool) (frame : Frame) (off : Nat) : Option Nat :=
  match load_u8 frame off, load_u8 frame (off + 1),
        load_u8 frame (off + 2), load_u8 frame (off + 3) with
  | some b0, some b1, some b2, some b3 =>
    some (if le then b0 + 256 * b1 + 65536 * b2 + 16777216 * b3
          else 16777216 * b0 + 65536 * b1 + 256 * b2 + b3)
  | _, _, _, _ => none

/-- Modelled from the spec: `htons`, host-to-network conversion of a 16-bit
value (a kernel macro, not in the repository): the host value whose
in-memory bytes are the big-endian bytes of `x`. -/
def htons (le : Bool) (x : Nat) : Nat :=
  if le then (x % 256) * 256 + (x / 256) % 256 else x % 65536

/-! ## The blocklist primitives -/

/-- The call `blocklist.lookup(&key)`: a pointer to the value of the first slot
holding `key` (its slot index), or `none` (NULL) on a miss. Read-only. -/
def BPF_HASH.lookup : BPF_HASH → Nat → Option Nat
  | [], _ => none
  | (k, _) :: rest, key =>
    if k = key then some 0 else (BPF_HASH.lookup rest key).map (· + 1)

/-- The call `lock_xadd(ptr, inc)`: atomic add of `inc` to the `u64` behind
`ptr`, wrapping at `2 ^ 64`. `none` if `ptr` is not a slot of the map. -/
def lock_xadd : BPF_HASH → Nat → Nat → Option BPF_HASH
  | [], _, _ => none
  | (k, v) :: rest, 0, inc => some ((k, (v + inc) % 2 ^ 64) :: rest)
  | e :: rest, ptr + 1, inc => (lock_xadd rest ptr inc).map (e :: ·)

/-- The keys held by the map, in slot order. -/
def BPF_HASH.keys (m : BPF_HASH) : List Nat := m.map Prod.fst

/-- The counter stored under `key` (what a lookup followed by a read of the
returned pointer yields), `none` if `key` has no entry. -/
def BPF_HASH.get : BPF_HASH → Nat → Option Nat
  | [], _ => none
  | (k, v) :: rest, key => if k = key then some v else BPF_HASH.get rest key

/-! ## The parsers -/

/-- Result of a parser call: the `int` return code, the cursor afterwards and
the header pointer written through the out-parameter (`none` = not written). -/
structure ParseResult where
  ret : Int
  c : cursor
  hdr : Option Nat
  deriving DecidableEq, Repr

/-- The function `parse_eth`: bounds check for one `struct ethhdr` at the
cursor, then hand out the header and advance. -/
def parse_eth (c : cursor) : ParseResult :=
  let eth_start := c.pos
  if eth_start + sizeof_ethhdr > c.end_ then
    { ret := -1, c := c, hdr := none }
  else
    { ret := 0, c := { c with pos := eth_start + sizeof_ethhdr }, hdr := some eth_start }

/-- The function `parse_ip`: bounds check for one `struct iphdr` at the cursor,
then hand out the header and advance. -/
def parse_ip (c : cursor) : ParseResult :=
  let ip_start := c.pos
  if ip_start + sizeof_iphdr > c.end_ then
    { ret := -1, c := c, hdr := none }
  else
    { ret := 0, c := { c with pos := ip_start + sizeof_iphdr }, hdr := some ip_start }

/-! ## The filter -/

/-- The function `xdp_filter`. The result is `none` when the run faults (a read
outside the frame, a read through an unset header pointer, or an add through
a pointer that is no slot of the map); otherwise the verdict and the map
after the call. -/
def xdp_filter (le : Bool) (frame : Frame) (blocklist : BPF_HASH) :
    Option (Verdict × BPF_HASH) :=
  let c : cursor := { pos := 0, end_ := frame.length }
  -- 1. Verify packet boundaries & parse Ethernet header
  let r := parse_eth c
  if r.ret < 0 then some (XDP_PASS, blocklist) else
  let c := r.c
  match r.hdr with
  | none => none
  | some eth =>
  -- 2. Check if the protocol is IPv4
  match load_u16 le frame (eth + offsetof_h_proto) with
  | none => none
  | some h_proto =>
  if h_proto ≠ htons le ETH_P_IP then some (XDP_PASS, blocklist) else
  -- 3. Extract the source IP
  let r := parse_ip c
  if r.ret < 0 then some (XDP_PASS, blocklist) else
  match r.hdr with
  | none => none
  | some ip =>
  match load_u32 le frame (ip + offsetof_saddr) with
  | none => none
  | some saddr =>
  -- 4. Lookup the source IP in the blocklist map
  match blocklist.lookup saddr with
  | some drop_count =>
    -- 5. If found, increment the drop count and return XDP_DROP
    match lock_xadd blocklist drop_count 1 with
    | none => none
    | some blocklist => some (XDP_DROP, blocklist)
  | none =>
    -- 6. If not found, return XDP_PASS
    some (XDP_PASS, blocklist)

/-! ## Sample inputs -/

/-- A 34-byte frame: zero MAC addresses, EtherType `08 00`, and an IPv4 header
that is zero except for the source address `10.0.0.5` at offsets 26-29. -/
def frame_10_0_0_5 : Frame :=
  [0, 0, 0, 0, 0, 0, 0, 0, 0, 0, 0, 0, 8, 0,
   0, 0, 0, 0, 0, 0, 0, 0, 0, 0, 0, 0, 10, 0, 0, 5, 0, 0, 0, 0]

/-- The `u32` that a host of the given byte order loads from the bytes
`10 0 0 5`. -/
def key_10_0_0_5 (le : Bool) : Nat := if le then 0x0500000A else 0x0A000005


/-- A 14-byte frame: an Ethernet header with EtherType `08 06` (ARP). -/
def frame_arp : Frame := [0, 0, 0, 0, 0, 0, 0, 0, 0, 0, 0, 0, 8, 6]

/-- The sample frame cut to 33 bytes: the IPv4 header lacks its last byte,
the source address bytes `10 0 0 5` are still present. -/
def frame_cut_33 : Frame := frame_10_0_0_5.take 33

/-- The sample frame with the source address `10.0.0.9` instead. -/
def frame_10_0_0_9 : Frame :=
  [0, 0, 0, 0, 0, 0, 0, 0, 0, 0, 0, 0, 8, 0,
   0, 0, 0, 0, 0, 0, 0, 0, 0, 0, 0, 0, 10, 0, 0, 9, 0, 0, 0, 0]

/-- A 40-byte frame with the same EtherType bytes `08 00` and the same source
address bytes `10 0 0 5` as `frame_10_0_0_5`, but with MAC addresses set, a
regular IPv4 header (version 4, IHL 5, protocol 17, destination
`192.168.1.1`) and six payload bytes. -/
def frame_10_0_0_5_udp : Frame :=
  [0xAA, 0xBB, 0xCC, 0xDD, 0xEE, 0xFF, 0x02, 0x00, 0x00, 0x00, 0x00, 0x01, 8, 0,
   0x45, 0, 0, 26, 0, 1, 0, 0, 64, 17, 0, 0, 10, 0, 0, 5, 192, 168, 1, 1,
   1, 2, 3, 4, 5, 6]

/-! ## Derived notions used by the statements -/

/-- The four bytes that a host of the given byte order keeps in memory for the
`u32` value `x`, lowest address first (the inverse of `load_u32`). -/
def store_u32 (le : Bool) (x : Nat) : List Nat :=
  if le then [x % 256, x / 256 % 256, x / 65536 % 256, x / 16777216 % 256]
  else [x / 16777216 % 256, x / 65536 % 256, x / 256 % 256, x % 256]

/-- Run `xdp_filter` on the frames one after another, each call starting from
the blocklist the previous call left; the verdicts in order and the final
blocklist, `none` if a call faults. -/
def xdp_filter_seq (le : Bool) : List Frame → BPF_HASH → Option (List Verdict × BPF_HASH)
  | [], blocklist => some ([], blocklist)
  | frame :: frames, blocklist =>
    match xdp_filter le frame blocklist with
    | none => none
    | some (verdict, blocklist) =>
      match xdp_filter_seq le frames blocklist with
      | none => none
      | some (verdicts, blocklist) => some (verdict :: verdicts, blocklist)

/-! ## Lemmas on memory reads -/

theorem load_u8_eq_some_iff (frame : Frame) (off b : Nat) :
    load_u8 frame off = some b ↔ ∃ x : Byte, frame[off]? = some x ∧ x.val = b := by
  unfold load_u8
  cases h : frame[off]? <;> simp

theorem load_u8_of_lt (frame : Frame) (off : Nat) (h : off < frame.length) :
    ∃ x : Byte, frame[off]? = some x ∧ load_u8 frame off = some x.val := by
  refine ⟨frame[off], ?_, ?_⟩
  · exact List.getElem?_eq_getElem h
  · simp [load_u8, List.getElem?_eq_getElem h]

theorem load_u8_isSome_iff (frame : Frame) (off : Nat) :
    (load_u8 frame off).isSome ↔ off < frame.length := by
  unfold load_u8
  by_cases h : off < frame.length
  · simp [List.getElem?_eq_getElem h, h]
  · simp [List.getElem?_eq_none (Nat.le_of_not_lt h), h]

theorem load_u16_isSome_iff (le : Bool) (frame : Frame) (off : Nat) :
    (load_u16 le frame off).isSome ↔ off + 1 < frame.length := by
  unfold load_u16
  by_cases h1 : off + 1 < frame.length
  · obtain ⟨x0, _, e0⟩ := load_u8_of_lt frame off (by omega)
    obtain ⟨x1, _, e1⟩ := load_u8_of_lt frame (off + 1) h1
    simp [e0, e1, h1]
  · have e1 : load_u8 frame (off + 1) = none := by
      simp [load_u8, List.getElem?_eq_none (Nat.le_of_not_lt h1)]
    cases h0 : load_u8 frame off <;> simp [e1, h1]

theorem load_u32_isSome_iff (le : Bool) (frame : Frame) (off : Nat) :
    (load_u32 le frame off).isSome ↔ off + 3 < frame.length := by
  unfold load_u32
  by_cases h3 : off + 3 < frame.length
  · obtain ⟨x0, _, e0⟩ := load_u8_of_lt frame off (by omega)
    obtain ⟨x1, _, e1⟩ := load_u8_of_lt frame (off + 1) (by omega)
    obtain ⟨x2, _, e2⟩ := load_u8_of_lt frame (off + 2) (by omega)
    obtain ⟨x3, _, e3⟩ := load_u8_of_lt frame (off + 3) h3
    simp [e0, e1, e2, e3, h3]
  · have e3 : load_u8 frame (off + 3) = none := by
      simp [load_u8, List.getElem?_eq_none (Nat.le_of_not_lt h3)]
    cases h0 : load_u8 frame off <;> cases h1 : load_u8 frame (off + 1) <;>
      cases h2 : load_u8 frame (off + 2) <;> simp [e3, h3]

/-- The EtherType test of the source, `eth->h_proto == htons(ETH_P_IP)`, holds
exactly when the two bytes in memory are `08 00`, on either byte order. -/
theorem load_u16_eq_htons_iff (le : Bool) (frame : Frame) (off : Nat) :
    load_u16 le frame off = some (htons le ETH_P_IP) ↔
      frame[off]? = some 8 ∧ frame[off + 1]? = some 0 := by
  unfold load_u16 load_u8 htons ETH_P_IP
  cases h0 : frame[off]? with
  | none => simp
  | some x0 =>
    cases h1 : frame[off + 1]? with
    | none => simp
    | some x1 =>
      have hx0 := x0.isLt
      have hx1 := x1.isLt
      cases le
      · simp only [Option.map_some', Bool.false_eq_true, if_false, Option.some.injEq]
        constructor
        · intro h
          have e0 : x0.val = 8 := by omega
          have e1 : x1.val = 0 := by omega
          exact ⟨Fin.ext e0, Fin.ext e1⟩
        · rintro ⟨rfl, rfl⟩
          decide
      · simp only [Option.map_some', if_true, Option.some.injEq]
        constructor
        · intro h
          have e0 : x0.val = 8 := by omega
          have e1 : x1.val = 0 := by omega
          exact ⟨Fin.ext e0, Fin.ext e1⟩
        · rintro ⟨rfl, rfl⟩
          decide


/-! ## Lemmas on the blocklist primitives -/

theorem lookup_eq_none_iff (m : BPF_HASH) (key : Nat) :
    m.lookup key = none ↔ key ∉ m.keys := by
  induction m with
  | nil => simp [BPF_HASH.lookup, BPF_HASH.keys]
  | cons e rest ih =>
    obtain ⟨k, v⟩ := e
    unfold BPF_HASH.keys at ih
    by_cases hk : k = key
    · simp [BPF_HASH.lookup, BPF_HASH.keys, hk]
    · have hk2 : ¬ key = k := fun h => hk h.symm
      simp [BPF_HASH.lookup, BPF_HASH.keys, hk, hk2, ih]

theorem lookup_isSome_iff (m : BPF_HASH) (key : Nat) :
    (m.lookup key).isSome ↔ key ∈ m.keys := by
  rw [← not_iff_not, ← lookup_eq_none_iff]
  cases m.lookup key <;> simp

theorem get_eq_none_iff (m : BPF_HASH) (key : Nat) :
    m.get key = none ↔ key ∉ m.keys := by
  induction m with
  | nil => simp [BPF_HASH.get, BPF_HASH.keys]
  | cons e rest ih =>
    obtain ⟨k, v⟩ := e
    unfold BPF_HASH.keys at ih
    by_cases hk : k = key
    · simp [BPF_HASH.get, BPF_HASH.keys, hk]
    · have hk2 : ¬ key = k := fun h => hk h.symm
      simp [BPF_HASH.get, BPF_HASH.keys, hk, hk2, ih]

/-- The pointer returned by a lookup hit designates a slot holding the key, and
reading through it gives the counter stored under the key. -/
theorem lookup_some_slot (m : BPF_HASH) (key ptr : Nat) (h : m.lookup key = some ptr) :
    ∃ v, m[ptr]? = some (key, v) ∧ m.get key = some v := by
  induction m generalizing ptr with
  | nil => simp [BPF_HASH.lookup] at h
  | cons e rest ih =>
    obtain ⟨k, v⟩ := e
    by_cases hk : k = key
    · simp [BPF_HASH.lookup, hk] at h
      subst h
      exact ⟨v, by simp [hk], by simp [BPF_HASH.get, hk]⟩
    · simp only [BPF_HASH.lookup, hk, if_false, Option.map_eq_some'] at h
      obtain ⟨p, hp, rfl⟩ := h
      obtain ⟨w, hw1, hw2⟩ := ih p hp
      exact ⟨w, by simpa using hw1, by simp [BPF_HASH.get, hk, hw2]⟩

/-- What `lock_xadd` does through the pointer of a lookup hit: it succeeds, the
slot behind the pointer gets its counter advanced modulo `2 ^ 64`, every other
slot is untouched, the keys stay as they are, the counter read under the key
is the advanced one and the counter read under any other key is unchanged. -/
theorem lock_xadd_of_lookup (m : BPF_HASH) (key ptr inc : Nat)
    (h : m.lookup key = some ptr) :
    ∃ m' v, lock_xadd m ptr inc = some m' ∧
      m.get key = some v ∧
      m'.get key = some ((v + inc) % 2 ^ 64) ∧
      m'.keys = m.keys ∧
      m'[ptr]? = some (key, (v + inc) % 2 ^ 64) ∧
      (∀ j, j ≠ ptr → m'[j]? = m[j]?) ∧
      (∀ k, k ≠ key → m'.get k = m.get k) := by
  induction m generalizing ptr with
  | nil => simp [BPF_HASH.lookup] at h
  | cons e rest ih =>
    obtain ⟨k, v⟩ := e
    by_cases hk : k = key
    · simp [BPF_HASH.lookup, hk] at h
      subst h
      subst hk
      refine ⟨(k, (v + inc) % 2 ^ 64) :: rest, v, by simp [lock_xadd], by simp [BPF_HASH.get],
        by simp [BPF_HASH.get], by simp [BPF_HASH.keys], by simp, ?_, ?_⟩
      · intro j hj
        cases j with
        | zero => exact absurd rfl hj
        | succ j => simp
      · intro k' hk'
        have : ¬ k = k' := fun h => hk' h.symm
        simp [BPF_HASH.get, this]
    · simp only [BPF_HASH.lookup, hk, if_false, Option.map_eq_some'] at h
      obtain ⟨p, hp, rfl⟩ := h
      obtain ⟨m', w, h1, h2, h3, h4, h5, h6, h7⟩ := ih p hp
      refine ⟨(k, v) :: m', w, by simp [lock_xadd, h1], by simp [BPF_HASH.get, hk, h2],
        by simp [BPF_HASH.get, hk, h3], ?_, by simpa using h5, ?_, ?_⟩
      · unfold BPF_HASH.keys at h4 ⊢
        simp [h4]
      · intro j hj
        cases j with
        | zero => simp
        | succ j =>
          have : j ≠ p := fun h => hj (by rw [h])
          simpa using h6 j this
      · intro k' hk'
        by_cases hkk : k = k'
        · simp [BPF_HASH.get, hkk]
        · simp [BPF_HASH.get, hkk, h7 k' hk']


/-! ## The decision procedure of `xdp_filter`, step by step -/

theorem xdp_filter_short (le : Bool) (frame : Frame) (m : BPF_HASH)
    (h : frame.length < 14) : xdp_filter le frame m = some (XDP_PASS, m) := by
  have h' : frame.length < 0 + 14 := by omega
  simp [xdp_filter, parse_eth, sizeof_ethhdr, h']

theorem xdp_filter_not_ipv4 (le : Bool) (frame : Frame) (m : BPF_HASH)
    (h : ¬ (frame[12]? = some 8 ∧ frame[13]? = some 0)) :
    xdp_filter le frame m = some (XDP_PASS, m) := by
  by_cases hs : frame.length < 14
  · exact xdp_filter_short le frame m hs
  · have h' : ¬ frame.length < 0 + 14 := by omega
    have hne : load_u16 le frame 12 ≠ some (htons le ETH_P_IP) := by
      rw [Ne, load_u16_eq_htons_iff]; exact h
    have hsome : (load_u16 le frame 12).isSome := by
      rw [load_u16_isSome_iff]; omega
    obtain ⟨x, hx⟩ := Option.isSome_iff_exists.mp hsome
    have hx' : x ≠ htons le ETH_P_IP := by
      intro e; rw [hx, e] at hne; exact hne rfl
    simp [xdp_filter, parse_eth, sizeof_ethhdr, offsetof_h_proto, h', hx, hx']

theorem xdp_filter_truncated_ip (le : Bool) (frame : Frame) (m : BPF_HASH)
    (h : frame.length < 34) : xdp_filter le frame m = some (XDP_PASS, m) := by
  by_cases hs : frame.length < 14
  · exact xdp_filter_short le frame m hs
  by_cases hp : frame[12]? = some 8 ∧ frame[13]? = some 0
  · have h' : ¬ frame.length < 0 + 14 := by omega
    have h'' : frame.length < 0 + 14 + 20 := by omega
    have hx : load_u16 le frame 12 = some (htons le ETH_P_IP) :=
      (load_u16_eq_htons_iff le frame 12).mpr hp
    simp [xdp_filter, parse_eth, parse_ip, sizeof_ethhdr, sizeof_iphdr, offsetof_h_proto,
      h', h'', hx]
  · exact xdp_filter_not_ipv4 le frame m hp

/-- A frame of at least 34 bytes with EtherType bytes `08 00` reaches the
lookup: the result is decided by the blocklist alone. -/
theorem xdp_filter_ipv4 (le : Bool) (frame : Frame) (m : BPF_HASH) (saddr : Nat)
    (hlen : 34 ≤ frame.length) (h12 : frame[12]? = some 8) (h13 : frame[13]? = some 0)
    (hs : load_u32 le frame 26 = some saddr) :
    xdp_filter le frame m =
      match m.lookup saddr with
      | some drop_count => (lock_xadd m drop_count 1).map (fun m' => (XDP_DROP, m'))
      | none => some (XDP_PASS, m) := by
  have h' : ¬ frame.length < 0 + 14 := by omega
  have h'' : ¬ frame.length < 0 + 14 + 20 := by omega
  have hx : load_u16 le frame 12 = some (htons le ETH_P_IP) :=
    (load_u16_eq_htons_iff le frame 12).mpr ⟨h12, h13⟩
  simp only [xdp_filter, parse_eth, parse_ip, sizeof_ethhdr, sizeof_iphdr, offsetof_h_proto,
    offsetof_saddr]
  simp [h', h'', hx, hs]
  cases m.lookup saddr with
  | none => rfl
  | some p =>
    show (match lock_xadd m p 1 with
      | none => none
      | some blocklist => some (XDP_DROP, blocklist)) =
        (lock_xadd m p 1).map (fun m' => (XDP_DROP, m'))
    cases lock_xadd m p 1 <;> rfl

theorem load_u32_of_len (le : Bool) (frame : Frame) (off : Nat) (h : off + 3 < frame.length) :
    ∃ a, load_u32 le frame off = some a :=
  Option.isSome_iff_exists.mp ((load_u32_isSome_iff le frame off).mpr h)


/-- A lookup hit: the frame is dropped and the matched counter is advanced
modulo `2 ^ 64`; nothing else in the map changes. -/
theorem xdp_filter_hit (le : Bool) (frame : Frame) (m : BPF_HASH) (saddr : Nat)
    (hlen : 34 ≤ frame.length) (h12 : frame[12]? = some 8) (h13 : frame[13]? = some 0)
    (hs : load_u32 le frame 26 = some saddr) (hk : saddr ∈ m.keys) :
    ∃ (m' : BPF_HASH) (v ptr : Nat), xdp_filter le frame m = some (XDP_DROP, m') ∧
      m.get saddr = some v ∧
      m'.get saddr = some ((v + 1) % 2 ^ 64) ∧
      m'.keys = m.keys ∧
      (∀ j, j ≠ ptr → m'[j]? = m[j]?) ∧
      (∀ k, k ≠ saddr → m'.get k = m.get k) := by
  obtain ⟨ptr, hp⟩ := Option.isSome_iff_exists.mp ((lookup_isSome_iff m saddr).mpr hk)
  obtain ⟨m', v, h1, h2, h3, h4, _, h6, h7⟩ := lock_xadd_of_lookup m saddr ptr 1 hp
  refine ⟨m', v, ptr, ?_, h2, h3, h4, h6, h7⟩
  rw [xdp_filter_ipv4 le frame m saddr hlen h12 h13 hs, hp]
  simp [h1]

/-- A lookup miss: the frame passes and the map is untouched. -/
theorem xdp_filter_miss (le : Bool) (frame : Frame) (m : BPF_HASH) (saddr : Nat)
    (hlen : 34 ≤ frame.length) (h12 : frame[12]? = some 8) (h13 : frame[13]? = some 0)
    (hs : load_u32 le frame 26 = some saddr) (hk : saddr ∉ m.keys) :
    xdp_filter le frame m = some (XDP_PASS, m) := by
  rw [xdp_filter_ipv4 le frame m saddr hlen h12 h13 hs, (lookup_eq_none_iff m saddr).mpr hk]

/-- Every run ends in one of three ways: the frame passes and the map is
untouched, or the frame is at least 34 bytes long with EtherType bytes `08 00`
and a source address that is a key, and it is dropped with that counter
advanced. -/
theorem xdp_filter_cases (le : Bool) (frame : Frame) (m : BPF_HASH) :
    xdp_filter le frame m = some (XDP_PASS, m) ∨
    (34 ≤ frame.length ∧ frame[12]? = some 8 ∧ frame[13]? = some 0 ∧
      ∃ saddr, load_u32 le frame 26 = some saddr ∧ saddr ∈ m.keys ∧
      ∃ (m' : BPF_HASH) (v ptr : Nat), xdp_filter le frame m = some (XDP_DROP, m') ∧
        m.get saddr = some v ∧
        m'.get saddr = some ((v + 1) % 2 ^ 64) ∧
        m'.keys = m.keys ∧
        (∀ j, j ≠ ptr → m'[j]? = m[j]?) ∧
        (∀ k, k ≠ saddr → m'.get k = m.get k)) := by
  by_cases hlen : frame.length < 34
  · exact Or.inl (xdp_filter_truncated_ip le frame m hlen)
  by_cases hp : frame[12]? = some 8 ∧ frame[13]? = some 0
  · obtain ⟨saddr, hs⟩ := load_u32_of_len le frame 26 (by omega)
    by_cases hk : saddr ∈ m.keys
    · exact Or.inr ⟨by omega, hp.1, hp.2, saddr, hs, hk,
        xdp_filter_hit le frame m saddr (by omega) hp.1 hp.2 hs hk⟩
    · exact Or.inl (xdp_filter_miss le frame m saddr (by omega) hp.1 hp.2 hs hk)
  · exact Or.inl (xdp_filter_not_ipv4 le frame m hp)


/-! ## Claims -/

/-- C1 (as stated, refuted): a frame with EtherType `08 00`, a full IPv4 header
and source address `10.0.0.5`, against a blocklist holding that address with
the counter `2 ^ 64 - 1` (the largest `u64`). The frame is dropped, but the
counter goes to `0`: it does not increase by 1. -/
theorem C1_counter_wraps_to_zero :
    34 ≤ frame_10_0_0_5.length ∧
    frame_10_0_0_5[12]? = some 8 ∧ frame_10_0_0_5[13]? = some 0 ∧
    load_u32 true frame_10_0_0_5 26 = some (key_10_0_0_5 true) ∧
    key_10_0_0_5 true ∈ BPF_HASH.keys [(key_10_0_0_5 true, 2 ^ 64 - 1)] ∧
    BPF_HASH.get [(key_10_0_0_5 true, 2 ^ 64 - 1)] (key_10_0_0_5 true) = some (2 ^ 64 - 1) ∧
    xdp_filter true frame_10_0_0_5 [(key_10_0_0_5 true, 2 ^ 64 - 1)] =
      some (XDP_DROP, [(key_10_0_0_5 true, 0)]) ∧
    BPF_HASH.get [(key_10_0_0_5 true, 0)] (key_10_0_0_5 true) = some 0 ∧
    ¬ (∃ m', xdp_filter true frame_10_0_0_5 [(key_10_0_0_5 true, 2 ^ 64 - 1)] =
        some (XDP_DROP, m') ∧
        BPF_HASH.get m' (key_10_0_0_5 true) = some ((2 ^ 64 - 1) + 1)) := by
  refine ⟨by decide, by decide, by decide, by decide, by decide, by decide, by decide,
    by decide, ?_⟩
  rintro ⟨m', h1, h2⟩
  have e : xdp_filter true frame_10_0_0_5 [(key_10_0_0_5 true, 2 ^ 64 - 1)] =
      some (XDP_DROP, [(key_10_0_0_5 true, 0)]) := by decide
  rw [e] at h1
  simp only [Option.some.injEq, Prod.mk.injEq, true_and] at h1
  subst h1
  revert h2
  decide

/-- C1 (amended): for a frame of at least 34 bytes with EtherType bytes `08 00`
whose source address (the `u32` at offsets 26-29) is a key of the blocklist,
`xdp_filter` returns DROP, the counter under that address becomes
`(old + 1) mod 2 ^ 64` (so `old + 1` whenever `old < 2 ^ 64 - 1`), the counter
under every other key is unchanged, every slot but the matched one is
unchanged, and the keys are unchanged. -/
theorem C1_blocked_source_dropped (le : Bool) (frame : Frame) (blocklist : BPF_HASH)
    (saddr : Nat) (hlen : 34 ≤ frame.length)
    (h12 : frame[12]? = some 8) (h13 : frame[13]? = some 0)
    (hs : load_u32 le frame 26 = some saddr) (hk : saddr ∈ blocklist.keys) :
    ∃ (after : BPF_HASH) (old ptr : Nat),
      xdp_filter le frame blocklist = some (XDP_DROP, after) ∧
      blocklist.get saddr = some old ∧
      after.get saddr = some ((old + 1) % 2 ^ 64) ∧
      (old < 2 ^ 64 - 1 → after.get saddr = some (old + 1)) ∧
      (∀ k, k ≠ saddr → after.get k = blocklist.get k) ∧
      (∀ j, j ≠ ptr → after[j]? = blocklist[j]?) ∧
      after.keys = blocklist.keys := by
  obtain ⟨m', v, ptr, h1, h2, h3, h4, h5, h6⟩ :=
    xdp_filter_hit le frame blocklist saddr hlen h12 h13 hs hk
  refine ⟨m', v, ptr, h1, h2, h3, ?_, h6, h5, h4⟩
  intro hv
  rw [h3, Nat.mod_eq_of_lt (by omega)]

/-- C1 (amended), at the spec's scenario 3: source `10.0.0.5`, blocklist entry
with counter 3. -/
theorem C1_blocked_source_dropped_witness :
    (34 ≤ frame_10_0_0_5.length ∧
     frame_10_0_0_5[12]? = some 8 ∧ frame_10_0_0_5[13]? = some 0 ∧
     load_u32 true frame_10_0_0_5 26 = some (key_10_0_0_5 true) ∧
     key_10_0_0_5 true ∈ BPF_HASH.keys [(key_10_0_0_5 true, 3)]) ∧
    ∃ (after : BPF_HASH) (old ptr : Nat),
      xdp_filter true frame_10_0_0_5 [(key_10_0_0_5 true, 3)] = some (XDP_DROP, after) ∧
      BPF_HASH.get [(key_10_0_0_5 true, 3)] (key_10_0_0_5 true) = some old ∧
      after.get (key_10_0_0_5 true) = some ((old + 1) % 2 ^ 64) ∧
      (old < 2 ^ 64 - 1 → after.get (key_10_0_0_5 true) = some (old + 1)) ∧
      (∀ k, k ≠ key_10_0_0_5 true →
        after.get k = BPF_HASH.get [(key_10_0_0_5 true, 3)] k) ∧
      (∀ j, j ≠ ptr → after[j]? = [(key_10_0_0_5 true, 3)][j]?) ∧
      after.keys = BPF_HASH.keys [(key_10_0_0_5 true, 3)] :=
  ⟨⟨by decide, by decide, by decide, by decide, by decide⟩,
   C1_blocked_source_dropped true frame_10_0_0_5 [(key_10_0_0_5 true, 3)]
     (key_10_0_0_5 true) (by decide) (by decide) (by decide) (by decide) (by decide)⟩

/-- C2: for a frame of at least 34 bytes with EtherType bytes `08 00` whose
source address is not a key of the blocklist, `xdp_filter` returns PASS and
the map after the call is the map before it. -/
theorem C2_unlisted_source_passes (le : Bool) (frame : Frame) (blocklist : BPF_HASH)
    (saddr : Nat) (hlen : 34 ≤ frame.length)
    (h12 : frame[12]? = some 8) (h13 : frame[13]? = some 0)
    (hs : load_u32 le frame 26 = some saddr) (hk : saddr ∉ blocklist.keys) :
    xdp_filter le frame blocklist = some (XDP_PASS, blocklist) :=
  xdp_filter_miss le frame blocklist saddr hlen h12 h13 hs hk

/-- C2 at the spec's scenario 4: source `10.0.0.9`, blocklist holding only
`10.0.0.5`. -/
theorem C2_unlisted_source_passes_witness :
    (34 ≤ frame_10_0_0_9.length ∧
     frame_10_0_0_9[12]? = some 8 ∧ frame_10_0_0_9[13]? = some 0 ∧
     load_u32 true frame_10_0_0_9 26 = some 0x0900000A ∧
     0x0900000A ∉ BPF_HASH.keys [(key_10_0_0_5 true, 3)]) ∧
    xdp_filter true frame_10_0_0_9 [(key_10_0_0_5 true, 3)] =
      some (XDP_PASS, [(key_10_0_0_5 true, 3)]) :=
  ⟨⟨by decide, by decide, by decide, by decide, by decide⟩,
   C2_unlisted_source_passes true frame_10_0_0_9 [(key_10_0_0_5 true, 3)] 0x0900000A
     (by decide) (by decide) (by decide) (by decide) (by decide)⟩


/-- C3: fail-open. If `xdp_filter` returns DROP then the frame is at least 34
bytes long, its bytes 12-13 are `08 00` and the `u32` at offsets 26-29 is a key
of the blocklist. Equivalently: a frame shorter than 14 bytes (Ethernet parse
fails), a frame whose bytes 12-13 are not `08 00`, a frame shorter than 34
bytes (IPv4 parse fails) and a frame whose source address is no key all get
PASS. -/
theorem C3_fail_open (le : Bool) (frame : Frame) (blocklist : BPF_HASH) :
    (∀ after, xdp_filter le frame blocklist = some (XDP_DROP, after) →
      34 ≤ frame.length ∧ frame[12]? = some 8 ∧ frame[13]? = some 0 ∧
      ∃ saddr, load_u32 le frame 26 = some saddr ∧ saddr ∈ blocklist.keys) ∧
    ((frame.length < 14 ∨ ¬ (frame[12]? = some 8 ∧ frame[13]? = some 0) ∨
        frame.length < 34 ∨
        ∃ saddr, load_u32 le frame 26 = some saddr ∧ saddr ∉ blocklist.keys) →
      xdp_filter le frame blocklist = some (XDP_PASS, blocklist)) := by
  constructor
  · intro after h
    rcases xdp_filter_cases le frame blocklist with hp | ⟨h1, h2, h3, a, h4, h5, _⟩
    · rw [hp] at h
      simp at h
    · exact ⟨h1, h2, h3, a, h4, h5⟩
  · rintro (h | h | h | ⟨a, ha, hk⟩)
    · exact xdp_filter_short le frame blocklist h
    · exact xdp_filter_not_ipv4 le frame blocklist h
    · exact xdp_filter_truncated_ip le frame blocklist h
    · rcases xdp_filter_cases le frame blocklist with hp | ⟨_, _, _, b, hb, hkb, _⟩
      · exact hp
      · rw [ha] at hb
        cases hb
        exact absurd hkb hk

/-- C3 at a dropped frame (source `10.0.0.5`, listed) and at a passed one (the
ARP frame against the same blocklist). -/
theorem C3_fail_open_witness :
    (xdp_filter true frame_10_0_0_5 [(key_10_0_0_5 true, 3)] =
        some (XDP_DROP, [(key_10_0_0_5 true, 4)]) ∧
      34 ≤ frame_10_0_0_5.length ∧
      frame_10_0_0_5[12]? = some 8 ∧ frame_10_0_0_5[13]? = some 0 ∧
      ∃ saddr, load_u32 true frame_10_0_0_5 26 = some saddr ∧
        saddr ∈ BPF_HASH.keys [(key_10_0_0_5 true, 3)]) ∧
    (¬ (frame_arp[12]? = some 8 ∧ frame_arp[13]? = some 0) ∧
      xdp_filter true frame_arp [(key_10_0_0_5 true, 3)] =
        some (XDP_PASS, [(key_10_0_0_5 true, 3)])) :=
  ⟨⟨by decide,
    (C3_fail_open true frame_10_0_0_5 [(key_10_0_0_5 true, 3)]).1
      [(key_10_0_0_5 true, 4)] (by decide)⟩,
   ⟨by decide,
    (C3_fail_open true frame_arp [(key_10_0_0_5 true, 3)]).2 (Or.inr (Or.inl (by decide)))⟩⟩

/-- C4: `xdp_filter` never faults and reads only inside the frame. For every
frame and blocklist the run ends with a verdict, PASS or DROP (the result is
never `none`, the value of an out-of-bounds read). The reads are guarded:
whenever `parse_eth` does not fail on a cursor whose end lies within the
frame, the header pointer is set, the whole header lies before the end and the
read of `h_proto` succeeds; likewise for `parse_ip` and the read of `saddr`. -/
theorem C4_no_fault_reads_in_bounds (le : Bool) (frame : Frame) (blocklist : BPF_HASH) :
    (∃ verdict after, xdp_filter le frame blocklist = some (verdict, after) ∧
      (verdict = XDP_PASS ∨ verdict = XDP_DROP)) ∧
    (∀ c : cursor, c.end_ ≤ frame.length → ¬ (parse_eth c).ret < 0 →
      ∃ eth, (parse_eth c).hdr = some eth ∧ eth + sizeof_ethhdr ≤ c.end_ ∧
        eth + offsetof_h_proto + 2 ≤ frame.length ∧
        (load_u16 le frame (eth + offsetof_h_proto)).isSome) ∧
    (∀ c : cursor, c.end_ ≤ frame.length → ¬ (parse_ip c).ret < 0 →
      ∃ ip, (parse_ip c).hdr = some ip ∧ ip + sizeof_iphdr ≤ c.end_ ∧
        ip + offsetof_saddr + 4 ≤ frame.length ∧
        (load_u32 le frame (ip + offsetof_saddr)).isSome) ∧
    (parse_eth { pos := 0, end_ := frame.length }).c.end_ = frame.length := by
  refine ⟨?_, ?_, ?_, ?_⟩
  · rcases xdp_filter_cases le frame blocklist with hp | ⟨_, _, _, _, _, _, m', _, _, h, _⟩
    · exact ⟨XDP_PASS, blocklist, hp, Or.inl rfl⟩
    · exact ⟨XDP_DROP, m', h, Or.inr rfl⟩
  · intro c hc hret
    by_cases hb : c.pos + 14 > c.end_
    · simp [parse_eth, sizeof_ethhdr, hb] at hret
    · refine ⟨c.pos, by simp [parse_eth, sizeof_ethhdr, hb], ?_, ?_, ?_⟩
      · simp only [sizeof_ethhdr]; omega
      · simp only [offsetof_h_proto]; omega
      · rw [load_u16_isSome_iff]; simp only [offsetof_h_proto]; omega
  · intro c hc hret
    by_cases hb : c.pos + 20 > c.end_
    · simp [parse_ip, sizeof_iphdr, hb] at hret
    · refine ⟨c.pos, by simp [parse_ip, sizeof_iphdr, hb], ?_, ?_, ?_⟩
      · simp only [sizeof_iphdr]; omega
      · simp only [offsetof_saddr]; omega
      · rw [load_u32_isSome_iff]; simp only [offsetof_saddr]; omega
  · by_cases hb : 0 + 14 > frame.length <;> simp [parse_eth, sizeof_ethhdr, hb]

/-- C4 at the sample frame: the run ends with a verdict, and both guarded reads
succeed on the cursors that `xdp_filter` passes to the parsers. -/
theorem C4_no_fault_reads_in_bounds_witness :
    (∃ verdict after, xdp_filter true frame_10_0_0_5 [(key_10_0_0_5 true, 3)] =
        some (verdict, after) ∧ (verdict = XDP_PASS ∨ verdict = XDP_DROP)) ∧
    (∃ eth, (parse_eth { pos := 0, end_ := 34 }).hdr = some eth ∧
        eth + sizeof_ethhdr ≤ 34 ∧
        eth + offsetof_h_proto + 2 ≤ frame_10_0_0_5.length ∧
        (load_u16 true frame_10_0_0_5 (eth + offsetof_h_proto)).isSome) ∧
    (∃ ip, (parse_ip { pos := 14, end_ := 34 }).hdr = some ip ∧
        ip + sizeof_iphdr ≤ 34 ∧
        ip + offsetof_saddr + 4 ≤ frame_10_0_0_5.length ∧
        (load_u32 true frame_10_0_0_5 (ip + offsetof_saddr)).isSome) :=
  ⟨(C4_no_fault_reads_in_bounds true frame_10_0_0_5 [(key_10_0_0_5 true, 3)]).1,
   (C4_no_fault_reads_in_bounds true frame_10_0_0_5 [(key_10_0_0_5 true, 3)]).2.1
     { pos := 0, end_ := 34 } (by decide) (by decide),
   (C4_no_fault_reads_in_bounds true frame_10_0_0_5 [(key_10_0_0_5 true, 3)]).2.2.1
     { pos := 14, end_ := 34 } (by decide) (by decide)⟩

/-- C5: a frame shorter than 14 bytes, the empty frame included, gets PASS and
leaves the blocklist unchanged. -/
theorem C5_short_frame_passes (le : Bool) (frame : Frame) (blocklist : BPF_HASH)
    (h : frame.length < 14) :
    xdp_filter le frame blocklist = some (XDP_PASS, blocklist) :=
  xdp_filter_short le frame blocklist h

/-- C5 at the spec's scenario 1: the 0-byte frame. -/
theorem C5_short_frame_passes_witness :
    ([] : Frame).length < 14 ∧
    xdp_filter true [] [(key_10_0_0_5 true, 3)] = some (XDP_PASS, [(key_10_0_0_5 true, 3)]) :=
  ⟨by decide, C5_short_frame_passes true [] [(key_10_0_0_5 true, 3)] (by decide)⟩

/-- C6: a frame whose bytes 12-13 are not `08 00` (or that does not have them)
gets PASS and leaves the blocklist unchanged, whatever follows the Ethernet
header and whatever the blocklist holds. -/
theorem C6_other_ethertype_passes (le : Bool) (frame : Frame) (blocklist : BPF_HASH)
    (h : ¬ (frame[12]? = some 8 ∧ frame[13]? = some 0)) :
    xdp_filter le frame blocklist = some (XDP_PASS, blocklist) :=
  xdp_filter_not_ipv4 le frame blocklist h

/-- C6 at the spec's scenario 2: a 14-byte Ethernet header with EtherType
`0x0806` (ARP). -/
theorem C6_other_ethertype_passes_witness :
    ¬ (frame_arp[12]? = some 8 ∧ frame_arp[13]? = some 0) ∧
    xdp_filter true frame_arp [(key_10_0_0_5 true, 3)] =
      some (XDP_PASS, [(key_10_0_0_5 true, 3)]) :=
  ⟨by decide, C6_other_ethertype_passes true frame_arp [(key_10_0_0_5 true, 3)] (by decide)⟩

/-- C7: a frame with a complete Ethernet header but fewer than 20 bytes after
it (total length 14 to 33) gets PASS and leaves the blocklist unchanged,
whatever its EtherType and whatever bytes are present. -/
theorem C7_truncated_ip_passes (le : Bool) (frame : Frame) (blocklist : BPF_HASH)
    (h14 : 14 ≤ frame.length) (h33 : frame.length ≤ 33) :
    xdp_filter le frame blocklist = some (XDP_PASS, blocklist) :=
  xdp_filter_truncated_ip le frame blocklist (by omega)

/-- C7 at a 33-byte frame with EtherType `08 00` whose bytes 26-29 spell the
listed address `10.0.0.5`. -/
theorem C7_truncated_ip_passes_witness :
    (14 ≤ frame_cut_33.length ∧ frame_cut_33.length ≤ 33 ∧
     frame_cut_33[12]? = some 8 ∧ frame_cut_33[13]? = some 0 ∧
     load_u32 true frame_cut_33 26 = some (key_10_0_0_5 true)) ∧
    xdp_filter true frame_cut_33 [(key_10_0_0_5 true, 3)] =
      some (XDP_PASS, [(key_10_0_0_5 true, 3)]) :=
  ⟨⟨by decide, by decide, by decide, by decide, by decide⟩,
   C7_truncated_ip_passes true frame_cut_33 [(key_10_0_0_5 true, 3)] (by decide) (by decide)⟩


/-- C8 (as stated, refuted): on a big-endian host, the sample frame against a
blocklist of two entries, the matched one holding `2 ^ 64 - 1`. The matched
counter is the only one that differs, but it goes from `2 ^ 64 - 1` to `0`,
which is not a change by 1 in either direction. -/
theorem C8_matched_counter_changes_by_more_than_one :
    xdp_filter false frame_10_0_0_5 [(7, 1), (key_10_0_0_5 false, 2 ^ 64 - 1)] =
      some (XDP_DROP, [(7, 1), (key_10_0_0_5 false, 0)]) ∧
    BPF_HASH.get [(7, 1), (key_10_0_0_5 false, 2 ^ 64 - 1)] (key_10_0_0_5 false) =
      some (2 ^ 64 - 1) ∧
    BPF_HASH.get [(7, 1), (key_10_0_0_5 false, 0)] (key_10_0_0_5 false) = some 0 ∧
    (2 ^ 64 - 1) + 1 ≠ 0 ∧ 0 + 1 ≠ 2 ^ 64 - 1 := by
  refine ⟨by decide, by decide, by decide, by decide, by decide⟩

/-- C8 (amended): one invocation performs at most one mutation of the
blocklist. The run ends with a verdict, the keys after the call are the keys
before it, and either the map is unchanged or exactly the counter of the
frame's source address was advanced to `(old + 1) mod 2 ^ 64` (which is
`old + 1` unless `old = 2 ^ 64 - 1`): every other key reads the same counter
and every slot but one is unchanged. -/
theorem C8_at_most_one_mutation (le : Bool) (frame : Frame) (blocklist : BPF_HASH) :
    ∃ (verdict : Verdict) (after : BPF_HASH),
      xdp_filter le frame blocklist = some (verdict, after) ∧
      after.keys = blocklist.keys ∧
      (after = blocklist ∨
        ∃ (saddr old ptr : Nat), load_u32 le frame 26 = some saddr ∧
          blocklist.get saddr = some old ∧
          after.get saddr = some ((old + 1) % 2 ^ 64) ∧
          (old < 2 ^ 64 - 1 → after.get saddr = some (old + 1)) ∧
          (∀ k, k ≠ saddr → after.get k = blocklist.get k) ∧
          (∀ j, j ≠ ptr → after[j]? = blocklist[j]?)) := by
  rcases xdp_filter_cases le frame blocklist with
    hp | ⟨_, _, _, saddr, hs, _, m', v, ptr, h1, h2, h3, h4, h5, h6⟩
  · exact ⟨XDP_PASS, blocklist, hp, rfl, Or.inl rfl⟩
  · refine ⟨XDP_DROP, m', h1, h4, Or.inr ⟨saddr, v, ptr, hs, h2, h3, ?_, h6, h5⟩⟩
    intro hv
    rw [h3, Nat.mod_eq_of_lt (by omega)]

/-- C9 (as stated, refuted): the frame with source `10.0.0.9` against a
blocklist holding that address with the counter `2 ^ 64 - 1`. After the call
the counter is `0`, which is below its value before the call. -/
theorem C9_counter_moves_down_at_max :
    BPF_HASH.get [(0x0900000A, 2 ^ 64 - 1)] 0x0900000A = some (2 ^ 64 - 1) ∧
    xdp_filter true frame_10_0_0_9 [(0x0900000A, 2 ^ 64 - 1)] =
      some (XDP_DROP, [(0x0900000A, 0)]) ∧
    BPF_HASH.get [(0x0900000A, 0)] 0x0900000A = some 0 ∧
    ¬ (2 ^ 64 - 1 ≤ 0) := by
  refine ⟨by decide, by decide, by decide, by decide⟩

/-- C9 (amended): for every frame, blocklist and key with a counter, the key
still has a counter after the call, and it is either the old value or
`(old + 1) mod 2 ^ 64`; so it is greater than or equal to the old value
whenever the old value is below `2 ^ 64 - 1`. -/
theorem C9_counter_upward_below_max (le : Bool) (frame : Frame) (blocklist : BPF_HASH)
    (key old : Nat) (h : blocklist.get key = some old) :
    ∃ (verdict : Verdict) (after : BPF_HASH) (new : Nat),
      xdp_filter le frame blocklist = some (verdict, after) ∧
      after.get key = some new ∧
      (new = old ∨ new = (old + 1) % 2 ^ 64) ∧
      (old < 2 ^ 64 - 1 → old ≤ new) := by
  rcases xdp_filter_cases le frame blocklist with
    hp | ⟨_, _, _, saddr, _, _, m', v, _, h1, h2, h3, _, _, h6⟩
  · exact ⟨XDP_PASS, blocklist, old, hp, h, Or.inl rfl, fun _ => Nat.le_refl _⟩
  · by_cases hk : key = saddr
    · subst hk
      rw [h] at h2
      cases h2
      refine ⟨XDP_DROP, m', (old + 1) % 2 ^ 64, h1, h3, Or.inr rfl, ?_⟩
      intro hv
      rw [Nat.mod_eq_of_lt (by omega)]
      omega
    · exact ⟨XDP_DROP, m', old, h1, by rw [h6 key hk, h], Or.inl rfl, fun _ => Nat.le_refl _⟩

/-- C9 (amended) at the spec's scenario 3: the counter 3 of `10.0.0.5` does not
go down. -/
theorem C9_counter_upward_below_max_witness :
    BPF_HASH.get [(key_10_0_0_5 true, 3)] (key_10_0_0_5 true) = some 3 ∧
    ∃ (verdict : Verdict) (after : BPF_HASH) (new : Nat),
      xdp_filter true frame_10_0_0_5 [(key_10_0_0_5 true, 3)] = some (verdict, after) ∧
      after.get (key_10_0_0_5 true) = some new ∧
      (new = 3 ∨ new = (3 + 1) % 2 ^ 64) ∧
      (3 < 2 ^ 64 - 1 → 3 ≤ new) :=
  ⟨by decide,
   C9_counter_upward_below_max true frame_10_0_0_5 [(key_10_0_0_5 true, 3)]
     (key_10_0_0_5 true) 3 (by decide)⟩

/-- C10: `parse_eth` returns 0 exactly when at least 14 bytes lie between the
cursor position and the end, and -1 otherwise; it succeeds with exactly 14
bytes left and fails with 13. On success the header handed out starts at the
old position and the cursor is advanced by exactly 14 bytes, its end kept. -/
theorem C10_parse_eth_needs_14 (c : cursor) :
    ((parse_eth c).ret = 0 ↔ c.pos + 14 ≤ c.end_) ∧
    ((parse_eth c).ret = -1 ↔ c.end_ < c.pos + 14) ∧
    (¬ (parse_eth c).ret < 0 ↔ 14 ≤ c.end_ - c.pos) ∧
    (c.pos + 14 ≤ c.end_ →
      (parse_eth c).hdr = some c.pos ∧
      (parse_eth c).c.pos = c.pos + 14 ∧
      (parse_eth c).c.end_ = c.end_) ∧
    (parse_eth { pos := c.pos, end_ := c.pos + 14 }).ret = 0 ∧
    (parse_eth { pos := c.pos, end_ := c.pos + 13 }).ret = -1 := by
  refine ⟨?_, ?_, ?_, ?_, ?_, ?_⟩
  · by_cases hb : c.pos + 14 > c.end_
    · simp [parse_eth, sizeof_ethhdr, hb]
    · simp [parse_eth, sizeof_ethhdr, hb]; omega
  · by_cases hb : c.pos + 14 > c.end_
    · simp [parse_eth, sizeof_ethhdr, hb]
    · simp [parse_eth, sizeof_ethhdr, hb]
  · by_cases hb : c.pos + 14 > c.end_
    · simp [parse_eth, sizeof_ethhdr, hb]; omega
    · simp [parse_eth, sizeof_ethhdr, hb]; omega
  · intro h
    have hb : ¬ c.pos + 14 > c.end_ := by omega
    simp [parse_eth, sizeof_ethhdr, hb]
  · simp [parse_eth, sizeof_ethhdr]
  · simp [parse_eth, sizeof_ethhdr]

/-- C10 at the cursor `xdp_filter` starts from on a 34-byte frame. -/
theorem C10_parse_eth_needs_14_witness :
    (0 : Nat) + 14 ≤ 34 ∧
    (parse_eth { pos := 0, end_ := 34 }).hdr = some 0 ∧
    (parse_eth { pos := 0, end_ := 34 }).c.pos = 0 + 14 ∧
    (parse_eth { pos := 0, end_ := 34 }).c.end_ = 34 :=
  ⟨by decide, (C10_parse_eth_needs_14 { pos := 0, end_ := 34 }).2.2.2.1 (by decide)⟩

/-! ## Lemmas for the source address key and for sequences of frames -/

/-- The value of a successful 32-bit load, in terms of the four bytes read. -/
theorem load_u32_eq_some (le : Bool) (frame : Frame) (off : Nat) (x0 x1 x2 x3 : Byte)
    (h0 : frame[off]? = some x0) (h1 : frame[off + 1]? = some x1)
    (h2 : frame[off + 2]? = some x2) (h3 : frame[off + 3]? = some x3) :
    load_u32 le frame off =
      some (if le then x0.val + 256 * x1.val + 65536 * x2.val + 16777216 * x3.val
            else 16777216 * x0.val + 65536 * x1.val + 256 * x2.val + x3.val) := by
  simp [load_u32, load_u8, h0, h1, h2, h3]

/-- Stored back to memory, a loaded `u32` gives the four bytes it was loaded
from, in the same order. -/
theorem store_u32_load (le : Bool) (x0 x1 x2 x3 : Byte) :
    store_u32 le (if le then x0.val + 256 * x1.val + 65536 * x2.val + 16777216 * x3.val
            else 16777216 * x0.val + 65536 * x1.val + 256 * x2.val + x3.val) =
      [x0.val, x1.val, x2.val, x3.val] := by
  have b0 := x0.isLt
  have b1 := x1.isLt
  have b2 := x2.isLt
  have b3 := x3.isLt
  cases le
  · simp only [store_u32, Bool.false_eq_true, if_false, List.cons.injEq, and_true]
    refine ⟨?_, ?_, ?_, ?_⟩ <;> omega
  · simp only [store_u32, if_true, List.cons.injEq, and_true]
    refine ⟨?_, ?_, ?_, ?_⟩ <;> omega

/-- The 32-bit load sees nothing of a frame but the four bytes it reads. -/
theorem load_u32_congr (le : Bool) (f1 f2 : Frame) (off : Nat)
    (h0 : f1[off]? = f2[off]?) (h1 : f1[off + 1]? = f2[off + 1]?)
    (h2 : f1[off + 2]? = f2[off + 2]?) (h3 : f1[off + 3]? = f2[off + 3]?) :
    load_u32 le f1 off = load_u32 le f2 off := by
  simp only [load_u32, load_u8, h0, h1, h2, h3]

/-- Two in-bounds 32-bit loads agree exactly when the four bytes agree. -/
theorem load_u32_inj (le : Bool) (f1 f2 : Frame) (off : Nat)
    (h1 : off + 3 < f1.length) (h2 : off + 3 < f2.length) :
    load_u32 le f1 off = load_u32 le f2 off ↔
      (f1[off]? = f2[off]? ∧ f1[off + 1]? = f2[off + 1]? ∧
       f1[off + 2]? = f2[off + 2]? ∧ f1[off + 3]? = f2[off + 3]?) := by
  constructor
  · intro h
    obtain ⟨a0, ea0, _⟩ := load_u8_of_lt f1 off (by omega)
    obtain ⟨a1, ea1, _⟩ := load_u8_of_lt f1 (off + 1) (by omega)
    obtain ⟨a2, ea2, _⟩ := load_u8_of_lt f1 (off + 2) (by omega)
    obtain ⟨a3, ea3, _⟩ := load_u8_of_lt f1 (off + 3) h1
    obtain ⟨c0, ec0, _⟩ := load_u8_of_lt f2 off (by omega)
    obtain ⟨c1, ec1, _⟩ := load_u8_of_lt f2 (off + 1) (by omega)
    obtain ⟨c2, ec2, _⟩ := load_u8_of_lt f2 (off + 2) (by omega)
    obtain ⟨c3, ec3, _⟩ := load_u8_of_lt f2 (off + 3) h2
    rw [load_u32_eq_some le f1 off a0 a1 a2 a3 ea0 ea1 ea2 ea3,
      load_u32_eq_some le f2 off c0 c1 c2 c3 ec0 ec1 ec2 ec3] at h
    have hs := congrArg (Option.map (store_u32 le)) h
    simp only [Option.map_some', store_u32_load, Option.some.injEq, List.cons.injEq,
      and_true] at hs
    obtain ⟨e0, e1, e2, e3⟩ := hs
    rw [ea0, ea1, ea2, ea3, ec0, ec1, ec2, ec3, Fin.ext e0, Fin.ext e1, Fin.ext e2, Fin.ext e3]
    exact ⟨rfl, rfl, rfl, rfl⟩
  · rintro ⟨h0, h1, h2, h3⟩
    exact load_u32_congr le f1 f2 off h0 h1 h2 h3

theorem mem_keys_of_get (m : BPF_HASH) (key v : Nat) (h : m.get key = some v) :
    key ∈ m.keys := by
  by_contra hk
  rw [(get_eq_none_iff m key).mpr hk] at h
  cases h

/-- A lookup sees nothing of the map but its keys. -/
theorem lookup_of_keys_eq (m1 m2 : BPF_HASH) (key : Nat) (h : m1.keys = m2.keys) :
    m1.lookup key = m2.lookup key := by
  induction m1 generalizing m2 with
  | nil =>
    cases m2 with
    | nil => rfl
    | cons e rest => simp [BPF_HASH.keys] at h
  | cons e1 r1 ih =>
    cases m2 with
    | nil => simp [BPF_HASH.keys] at h
    | cons e2 r2 =>
      obtain ⟨k1, v1⟩ := e1
      obtain ⟨k2, v2⟩ := e2
      simp only [BPF_HASH.keys, List.map_cons, List.cons.injEq] at h
      obtain ⟨hk, hr⟩ := h
      subst hk
      simp only [BPF_HASH.lookup, ih r2 hr]


/-- A lookup hit, with the pointer named: the frame is dropped, the matched
counter is advanced modulo `2 ^ 64`, the slots other than the one the lookup
returned are untouched, and so are the keys. -/
theorem xdp_filter_hit_at (le : Bool) (frame : Frame) (m : BPF_HASH) (saddr old ptr : Nat)
    (hlen : 34 ≤ frame.length) (h12 : frame[12]? = some 8) (h13 : frame[13]? = some 0)
    (hs : load_u32 le frame 26 = some saddr) (hg : m.get saddr = some old)
    (hp : m.lookup saddr = some ptr) :
    ∃ m' : BPF_HASH, xdp_filter le frame m = some (XDP_DROP, m') ∧
      m'.get saddr = some ((old + 1) % 2 ^ 64) ∧
      m'.keys = m.keys ∧
      m'.lookup saddr = some ptr ∧
      (∀ j, j ≠ ptr → m'[j]? = m[j]?) ∧
      (∀ k, k ≠ saddr → m'.get k = m.get k) := by
  obtain ⟨m', v, h1, h2, h3, h4, _, h6, h7⟩ := lock_xadd_of_lookup m saddr ptr 1 hp
  rw [hg] at h2
  cases h2
  refine ⟨m', ?_, h3, h4, ?_, h6, h7⟩
  · rw [xdp_filter_ipv4 le frame m saddr hlen h12 h13 hs, hp]
    simp [h1]
  · rw [lookup_of_keys_eq m' m saddr h4, hp]

/-- A run of frames that all carry the listed source address: every call
drops, and the counter ends up advanced by the number of frames, modulo
`2 ^ 64`. -/
theorem xdp_filter_seq_hits (le : Bool) (frames : List Frame) (m : BPF_HASH)
    (saddr old ptr : Nat)
    (hf : ∀ f ∈ frames, 34 ≤ f.length ∧ f[12]? = some 8 ∧ f[13]? = some 0 ∧
      load_u32 le f 26 = some saddr)
    (hg : m.get saddr = some old) (hu : old < 2 ^ 64) (hp : m.lookup saddr = some ptr) :
    ∃ m' : BPF_HASH,
      xdp_filter_seq le frames m = some (List.replicate frames.length XDP_DROP, m') ∧
      m'.get saddr = some ((old + frames.length) % 2 ^ 64) ∧
      m'.keys = m.keys ∧
      (∀ j, j ≠ ptr → m'[j]? = m[j]?) ∧
      (∀ k, k ≠ saddr → m'.get k = m.get k) := by
  induction frames generalizing m old with
  | nil =>
    refine ⟨m, rfl, ?_, rfl, fun _ _ => rfl, fun _ _ => rfl⟩
    rw [hg, List.length_nil, Nat.add_zero, Nat.mod_eq_of_lt hu]
  | cons f fs ih =>
    obtain ⟨hlen, h12, h13, hs⟩ := hf f (List.mem_cons_self f fs)
    obtain ⟨m1, e1, g1, k1, p1, s1, o1⟩ :=
      xdp_filter_hit_at le f m saddr old ptr hlen h12 h13 hs hg hp
    obtain ⟨m2, e2, g2, k2, s2, o2⟩ :=
      ih m1 ((old + 1) % 2 ^ 64) (fun g hgm => hf g (List.mem_cons_of_mem f hgm)) g1
        (Nat.mod_lt _ (by decide)) p1
    refine ⟨m2, ?_, ?_, k2.trans k1, ?_, ?_⟩
    · simp [xdp_filter_seq, e1, e2, List.replicate_succ]
    · rw [g2]
      congr 1
      simp only [List.length_cons]
      omega
    · intro j hj
      rw [s2 j hj, s1 j hj]
    · intro k hk
      rw [o2 k hk, o1 k hk]


/-- The two parsers in sequence on a fresh cursor: when the frame has at least
34 bytes the IPv4 header is handed out at offset 14, so its `saddr` field is
at frame offset 26. -/
theorem parse_ip_after_parse_eth (frame : Frame) (h : 34 ≤ frame.length) :
    (parse_ip (parse_eth { pos := 0, end_ := frame.length }).c).hdr = some 14 := by
  have h1 : ¬ (0 + 14 > frame.length) := by omega
  have h2 : ¬ (0 + 14 + 20 > frame.length) := by omega
  simp [parse_eth, parse_ip, sizeof_ethhdr, sizeof_iphdr, h1, h2]

/-! ## Claims, continued -/

/-- C11: `parse_ip` returns 0 exactly when at least 20 bytes lie between the
cursor position and the end (-1 otherwise), and on success advances the cursor
by exactly 20 bytes. The lookup key of `xdp_filter` is the `saddr` field read
verbatim: the IPv4 header is handed out at frame offset 14, the key is the
host-order load of the four bytes at frame offsets 26-29, its bytes in memory
are those four bytes in the same order, and the run is decided by the lookup
of that key. Two frames of at least 34 bytes give the same key exactly when
their bytes 26-29 are equal. -/
theorem C11_parse_ip_and_verbatim_key (le : Bool) (c : cursor) (f1 f2 : Frame)
    (blocklist : BPF_HASH) (h1 : 34 ≤ f1.length) (h2 : 34 ≤ f2.length) :
    ((parse_ip c).ret = 0 ↔ c.pos + 20 ≤ c.end_) ∧
    ((parse_ip c).ret = -1 ↔ c.end_ < c.pos + 20) ∧
    (¬ (parse_ip c).ret < 0 ↔ 20 ≤ c.end_ - c.pos) ∧
    (c.pos + 20 ≤ c.end_ →
      (parse_ip c).hdr = some c.pos ∧
      (parse_ip c).c.pos = c.pos + 20 ∧
      (parse_ip c).c.end_ = c.end_) ∧
    (parse_ip (parse_eth { pos := 0, end_ := f1.length }).c).hdr = some 14 ∧
    14 + offsetof_saddr = 26 ∧
    (∃ (x0 x1 x2 x3 : Byte) (saddr : Nat),
      f1[26]? = some x0 ∧ f1[27]? = some x1 ∧ f1[28]? = some x2 ∧ f1[29]? = some x3 ∧
      load_u32 le f1 26 = some saddr ∧
      store_u32 le saddr = [x0.val, x1.val, x2.val, x3.val] ∧
      (f1[12]? = some 8 → f1[13]? = some 0 →
        xdp_filter le f1 blocklist =
          match blocklist.lookup saddr with
          | some drop_count =>
            (lock_xadd blocklist drop_count 1).map (fun m' => (XDP_DROP, m'))
          | none => some (XDP_PASS, blocklist))) ∧
    (load_u32 le f1 26 = load_u32 le f2 26 ↔
      (f1[26]? = f2[26]? ∧ f1[27]? = f2[27]? ∧ f1[28]? = f2[28]? ∧ f1[29]? = f2[29]?)) := by
  refine ⟨?_, ?_, ?_, ?_, parse_ip_after_parse_eth f1 h1, rfl, ?_, ?_⟩
  · by_cases hb : c.pos + 20 > c.end_
    · simp [parse_ip, sizeof_iphdr, hb]
    · simp [parse_ip, sizeof_iphdr, hb]; omega
  · by_cases hb : c.pos + 20 > c.end_
    · simp [parse_ip, sizeof_iphdr, hb]
    · simp [parse_ip, sizeof_iphdr, hb]
  · by_cases hb : c.pos + 20 > c.end_
    · simp [parse_ip, sizeof_iphdr, hb]; omega
    · simp [parse_ip, sizeof_iphdr, hb]; omega
  · intro h
    have hb : ¬ c.pos + 20 > c.end_ := by omega
    simp [parse_ip, sizeof_iphdr, hb]
  · obtain ⟨x0, e0, _⟩ := load_u8_of_lt f1 26 (by omega)
    obtain ⟨x1, e1, _⟩ := load_u8_of_lt f1 27 (by omega)
    obtain ⟨x2, e2, _⟩ := load_u8_of_lt f1 28 (by omega)
    obtain ⟨x3, e3, _⟩ := load_u8_of_lt f1 29 (by omega)
    have hl := load_u32_eq_some le f1 26 x0 x1 x2 x3 e0 e1 e2 e3
    refine ⟨x0, x1, x2, x3, _, e0, e1, e2, e3, hl, store_u32_load le x0 x1 x2 x3, ?_⟩
    intro h12 h13
    exact xdp_filter_ipv4 le f1 blocklist _ h1 h12 h13 hl
  · exact load_u32_inj le f1 f2 26 (by omega) (by omega)

/-- C11 at two frames that differ everywhere but in the EtherType and the
source address bytes: they give the same lookup key. -/
theorem C11_parse_ip_and_verbatim_key_witness :
    (34 ≤ frame_10_0_0_5.length ∧ 34 ≤ frame_10_0_0_5_udp.length) ∧
    ((parse_ip { pos := 14, end_ := 34 }).ret = 0 ↔ 14 + 20 ≤ 34) ∧
    (load_u32 true frame_10_0_0_5 26 = load_u32 true frame_10_0_0_5_udp 26 ↔
      (frame_10_0_0_5[26]? = frame_10_0_0_5_udp[26]? ∧
       frame_10_0_0_5[27]? = frame_10_0_0_5_udp[27]? ∧
       frame_10_0_0_5[28]? = frame_10_0_0_5_udp[28]? ∧
       frame_10_0_0_5[29]? = frame_10_0_0_5_udp[29]?)) :=
  ⟨⟨by decide, by decide⟩,
   (C11_parse_ip_and_verbatim_key true { pos := 14, end_ := 34 } frame_10_0_0_5
     frame_10_0_0_5_udp [] (by decide) (by decide)).1,
   (C11_parse_ip_and_verbatim_key true { pos := 14, end_ := 34 } frame_10_0_0_5
     frame_10_0_0_5_udp [] (by decide) (by decide)).2.2.2.2.2.2.2⟩

/-- C13: sequential accumulation. For a blocklist holding key `A` with the
`u64` counter `C`, and any list of frames that each have at least 34 bytes,
EtherType bytes `08 00` and source address `A`, running `xdp_filter` on the
frames in turn returns DROP every time and ends with the counter of `A` equal
to `(C + N) mod 2 ^ 64`, `N` the number of frames; the counter under every
other key, every slot but the one of `A`, and the keys are unchanged. -/
theorem C13_sequential_accumulation (le : Bool) (frames : List Frame) (blocklist : BPF_HASH)
    (A C : Nat) (hC : blocklist.get A = some C) (hu : C < 2 ^ 64)
    (hf : ∀ f ∈ frames, 34 ≤ f.length ∧ f[12]? = some 8 ∧ f[13]? = some 0 ∧
      load_u32 le f 26 = some A) :
    ∃ after : BPF_HASH,
      xdp_filter_seq le frames blocklist =
        some (List.replicate frames.length XDP_DROP, after) ∧
      after.get A = some ((C + frames.length) % 2 ^ 64) ∧
      (∀ k, k ≠ A → after.get k = blocklist.get k) ∧
      (∃ ptr, blocklist.lookup A = some ptr ∧ ∀ j, j ≠ ptr → after[j]? = blocklist[j]?) ∧
      after.keys = blocklist.keys := by
  obtain ⟨ptr, hp⟩ := Option.isSome_iff_exists.mp
    ((lookup_isSome_iff blocklist A).mpr (mem_keys_of_get blocklist A C hC))
  obtain ⟨m', e, g, k, s, o⟩ := xdp_filter_seq_hits le frames blocklist A C ptr hf hC hu hp
  exact ⟨m', e, g, o, ⟨ptr, hp, s⟩, k⟩

/-- C13 at three frames with source `10.0.0.5` against a counter two below the
largest `u64`: three DROPs, and the counter ends at
`(2 ^ 64 - 2 + 3) mod 2 ^ 64 = 1`. -/
theorem C13_sequential_accumulation_witness :
    (BPF_HASH.get [(7, 1), (key_10_0_0_5 true, 2 ^ 64 - 2)] (key_10_0_0_5 true) =
        some (2 ^ 64 - 2) ∧
      2 ^ 64 - 2 < 2 ^ 64 ∧
      ∀ f ∈ [frame_10_0_0_5, frame_10_0_0_5_udp, frame_10_0_0_5],
        34 ≤ f.length ∧ f[12]? = some 8 ∧ f[13]? = some 0 ∧
        load_u32 true f 26 = some (key_10_0_0_5 true)) ∧
    ∃ after : BPF_HASH,
      xdp_filter_seq true [frame_10_0_0_5, frame_10_0_0_5_udp, frame_10_0_0_5]
          [(7, 1), (key_10_0_0_5 true, 2 ^ 64 - 2)] =
        some (List.replicate 3 XDP_DROP, after) ∧
      after.get (key_10_0_0_5 true) = some ((2 ^ 64 - 2 + 3) % 2 ^ 64) ∧
      (∀ k, k ≠ key_10_0_0_5 true →
        after.get k = BPF_HASH.get [(7, 1), (key_10_0_0_5 true, 2 ^ 64 - 2)] k) ∧
      (∃ ptr, BPF_HASH.lookup [(7, 1), (key_10_0_0_5 true, 2 ^ 64 - 2)] (key_10_0_0_5 true) =
          some ptr ∧
        ∀ j, j ≠ ptr → after[j]? = [(7, 1), (key_10_0_0_5 true, 2 ^ 64 - 2)][j]?) ∧
      after.keys = BPF_HASH.keys [(7, 1), (key_10_0_0_5 true, 2 ^ 64 - 2)] :=
  ⟨⟨by decide, by decide, by decide⟩,
   C13_sequential_accumulation true [frame_10_0_0_5, frame_10_0_0_5_udp, frame_10_0_0_5]
     [(7, 1), (key_10_0_0_5 true, 2 ^ 64 - 2)] (key_10_0_0_5 true) (2 ^ 64 - 2)
     (by decide) (by decide) (by decide)⟩

/-- C14: the result of `xdp_filter` depends only on the EtherType bytes and the
source address bytes once the frame has 34 bytes. Two frames of at least 34
bytes that agree on bytes 12-13 and 26-29 get the same verdict and leave the
same blocklist, whatever their other bytes and their lengths are. -/
theorem C14_depends_only_on_type_and_source (le : Bool) (f1 f2 : Frame)
    (blocklist : BPF_HASH) (h1 : 34 ≤ f1.length) (h2 : 34 ≤ f2.length)
    (e12 : f1[12]? = f2[12]?) (e13 : f1[13]? = f2[13]?)
    (e26 : f1[26]? = f2[26]?) (e27 : f1[27]? = f2[27]?)
    (e28 : f1[28]? = f2[28]?) (e29 : f1[29]? = f2[29]?) :
    xdp_filter le f1 blocklist = xdp_filter le f2 blocklist := by
  by_cases hp : f1[12]? = some 8 ∧ f1[13]? = some 0
  · obtain ⟨saddr, hs⟩ := load_u32_of_len le f1 26 (by omega)
    have hs2 : load_u32 le f2 26 = some saddr := by
      rw [← load_u32_congr le f1 f2 26 e26 e27 e28 e29, hs]
    rw [xdp_filter_ipv4 le f1 blocklist saddr h1 hp.1 hp.2 hs,
      xdp_filter_ipv4 le f2 blocklist saddr h2 (e12 ▸ hp.1) (e13 ▸ hp.2) hs2]
  · have hp2 : ¬ (f2[12]? = some 8 ∧ f2[13]? = some 0) := by
      rw [← e12, ← e13]; exact hp
    rw [xdp_filter_not_ipv4 le f1 blocklist hp, xdp_filter_not_ipv4 le f2 blocklist hp2]

/-- C14 at the all-zero sample frame (first header byte `00`, so a version
nibble that is not 4) and the regular UDP frame of 40 bytes with the same
EtherType and source bytes: same result, and it is a DROP with the counter
advanced. -/
theorem C14_depends_only_on_type_and_source_witness :
    (34 ≤ frame_10_0_0_5.length ∧ 34 ≤ frame_10_0_0_5_udp.length ∧
     frame_10_0_0_5[12]? = frame_10_0_0_5_udp[12]? ∧
     frame_10_0_0_5[13]? = frame_10_0_0_5_udp[13]? ∧
     frame_10_0_0_5[26]? = frame_10_0_0_5_udp[26]? ∧
     frame_10_0_0_5[27]? = frame_10_0_0_5_udp[27]? ∧
     frame_10_0_0_5[28]? = frame_10_0_0_5_udp[28]? ∧
     frame_10_0_0_5[29]? = frame_10_0_0_5_udp[29]?) ∧
    (frame_10_0_0_5[14]? = some 0 ∧ frame_10_0_0_5_udp[14]? = some 0x45 ∧
     frame_10_0_0_5.length ≠ frame_10_0_0_5_udp.length) ∧
    xdp_filter true frame_10_0_0_5 [(key_10_0_0_5 true, 3)] =
      xdp_filter true frame_10_0_0_5_udp [(key_10_0_0_5 true, 3)] ∧
    xdp_filter true frame_10_0_0_5 [(key_10_0_0_5 true, 3)] =
      some (XDP_DROP, [(key_10_0_0_5 true, 4)]) :=
  ⟨⟨by decide, by decide, by decide, by decide, by decide, by decide, by decide, by decide⟩,
   ⟨by decide, by decide, by decide⟩,
   C14_depends_only_on_type_and_source true frame_10_0_0_5 frame_10_0_0_5_udp
     [(key_10_0_0_5 true, 3)] (by decide) (by decide) (by decide) (by decide)
     (by decide) (by decide) (by decide) (by decide),
   by decide⟩

/-- C15: cursor invariant. On a cursor with `pos ≤ end`, `parse_eth` and
`parse_ip` each return 0 or -1, leave `end` unchanged and keep `pos ≤ end`;
on -1 the position is unchanged and no header is handed out; on 0 the new
position is the old one plus the header size (14, respectively 20) and the
header handed out starts at the old position. -/
theorem C15_cursor_invariant (c : cursor) (h : c.pos ≤ c.end_) :
    (((parse_eth c).ret = 0 ∨ (parse_eth c).ret = -1) ∧
      (parse_eth c).c.end_ = c.end_ ∧
      (parse_eth c).c.pos ≤ (parse_eth c).c.end_ ∧
      ((parse_eth c).ret = -1 → (parse_eth c).c.pos = c.pos ∧ (parse_eth c).hdr = none) ∧
      ((parse_eth c).ret = 0 →
        (parse_eth c).c.pos = c.pos + 14 ∧ (parse_eth c).hdr = some c.pos)) ∧
    (((parse_ip c).ret = 0 ∨ (parse_ip c).ret = -1) ∧
      (parse_ip c).c.end_ = c.end_ ∧
      (parse_ip c).c.pos ≤ (parse_ip c).c.end_ ∧
      ((parse_ip c).ret = -1 → (parse_ip c).c.pos = c.pos ∧ (parse_ip c).hdr = none) ∧
      ((parse_ip c).ret = 0 →
        (parse_ip c).c.pos = c.pos + 20 ∧ (parse_ip c).hdr = some c.pos)) := by
  constructor
  · by_cases hb : c.pos + 14 > c.end_
    · simp [parse_eth, sizeof_ethhdr, hb, h]
    · simp [parse_eth, sizeof_ethhdr, hb]
      omega
  · by_cases hb : c.pos + 20 > c.end_
    · simp [parse_ip, sizeof_iphdr, hb, h]
    · simp [parse_ip, sizeof_iphdr, hb]
      omega

/-- C15 at the cursor left by the Ethernet parse of a 24-byte frame, with 10
bytes remaining: the invariant holds for `parse_eth`, and `parse_ip` fails,
leaves the position at 14 and hands out no header. -/
theorem C15_cursor_invariant_witness :
    (14 : Nat) ≤ 24 ∧
    (((parse_eth { pos := 14, end_ := 24 }).ret = 0 ∨
        (parse_eth { pos := 14, end_ := 24 }).ret = -1) ∧
      (parse_eth { pos := 14, end_ := 24 }).c.end_ = 24 ∧
      (parse_eth { pos := 14, end_ := 24 }).c.pos ≤ (parse_eth { pos := 14, end_ := 24 }).c.end_ ∧
      ((parse_eth { pos := 14, end_ := 24 }).ret = -1 →
        (parse_eth { pos := 14, end_ := 24 }).c.pos = 14 ∧
        (parse_eth { pos := 14, end_ := 24 }).hdr = none) ∧
      ((parse_eth { pos := 14, end_ := 24 }).ret = 0 →
        (parse_eth { pos := 14, end_ := 24 }).c.pos = 14 + 14 ∧
        (parse_eth { pos := 14, end_ := 24 }).hdr = some 14)) ∧
    (parse_ip { pos := 14, end_ := 24 }).ret = -1 ∧
    (parse_ip { pos := 14, end_ := 24 }).c.pos = 14 ∧
    (parse_ip { pos := 14, end_ := 24 }).hdr = none :=
  ⟨by decide, (C15_cursor_invariant { pos := 14, end_ := 24 } (by decide)).1,
   by decide,
   ((C15_cursor_invariant { pos := 14, end_ := 24 } (by decide)).2.2.2.2.1 (by decide)).1,
   ((C15_cursor_invariant { pos := 14, end_ := 24 } (by decide)).2.2.2.2.1 (by decide)).2⟩

end Mitigation
